import Mathlib

/-!
Shallow embedding of `src/PRE/quantum-cryptography.py` (class
`QuantumCryptographySimulator`).

The external `oqs` provider is modelled abstractly: every provider call
either returns a value or raises, encoded as `Except String _` where the
`String` is the Python exception text `str(e)`.  Byte strings are
`List Nat`.  The Python `time.time()` wall clock is modelled as an
arbitrary function `clock : Nat -> Rat`; the i-th call to `time.time()`
during a run reads `clock i`.  `time.time()` is *not* monotonic, so no
ordering between successive readings is assumed.

Each simulate function also returns the ordered trace of observable
effects (clock reads, session constructions, cryptographic calls), so
that statements about *when* the timer is read relative to session
setup can be made.
-/

/-- Byte strings (Python `bytes`): lists of byte values. -/
abbrev Bytes : Type := List Nat

/-- Values stored in the heterogeneous `details` dict of a `CryptoResult`. -/
inductive DValue : Type where
  | nat (n : Nat)
  | bool (b : Bool)
  | str (s : String)
deriving DecidableEq

/-- Mirrors the Python dataclass `CryptoResult` (quantum-cryptography.py
lines 24-32).  `details : Dict[str, Any]` becomes an insertion-ordered
association list. -/
structure CryptoResult : Type where
  algorithm : String
  operation : String
  key_size : Nat
  execution_time : Rat
  success : Bool
  details : List (String × DValue)
deriving DecidableEq

/-- Observable effects of a simulate call, in program order. -/
inductive Event : Type where
  | timeRead
  | sessionCreate
  | cryptoCall (name : String)
deriving DecidableEq

/-- The behaviour of the `oqs.KeyEncapsulation` sessions for one
algorithm during one KEM exchange: each constructor/method call either
returns or raises. `new_client`/`new_server` are the two
`oqs.KeyEncapsulation(algorithm)` constructions (lines 58-59). -/
structure KemOps : Type where
  new_client : Except String Unit
  new_server : Except String Unit
  generate_keypair : Except String Bytes
  encap_secret : Bytes → Except String (Bytes × Bytes)
  decap_secret : Bytes → Except String Bytes

/-- The behaviour of the `oqs.Signature` sessions for one algorithm
during one signature round-trip (lines 104-113). -/
structure SigOps : Type where
  new_signer : Except String Unit
  new_verifier : Except String Unit
  generate_keypair : Except String Bytes
  sign : Bytes → Except String Bytes
  verify : Bytes → Bytes → Bytes → Except String Bool

/-- The external `oqs` provider: per algorithm name, the behaviour of
its KEM and signature sessions. -/
structure Provider : Type where
  kem : String → KemOps
  sig : String → SigOps

/-- The failure `CryptoResult` built in the `except` handler of
`simulate_kem_exchange` (lines 88-97). -/
def kemFailureResult (algorithm : String) (e : String) (t0 t1 : Rat) : CryptoResult :=
  { algorithm := algorithm
    operation := "KEM Exchange"
    key_size := 0
    execution_time := t1 - t0
    success := false
    details := [("error", DValue.str e)] }

/-- `simulate_kem_exchange` (quantum-cryptography.py lines 53-97).
`clock n` is the `time.time()` reading at `start_time` (line 55, before
the sessions are constructed) and `clock (n+1)` the reading at line 72
(success) or line 89 (exception).  Returns the `CryptoResult` together
with the effect trace. -/
def simulate_kem_exchange (p : Provider) (clock : Nat → Rat) (n : Nat)
    (algorithm : String) : CryptoResult × List Event :=
  let start_time := clock n
  let t1 := clock (n + 1)
  let ops := p.kem algorithm
  match ops.new_client with
  | .error e =>
      (kemFailureResult algorithm e start_time t1,
       [Event.timeRead, Event.sessionCreate, Event.timeRead])
  | .ok _ =>
  match ops.new_server with
  | .error e =>
      (kemFailureResult algorithm e start_time t1,
       [Event.timeRead, Event.sessionCreate, Event.sessionCreate, Event.timeRead])
  | .ok _ =>
  match ops.generate_keypair with
  | .error e =>
      (kemFailureResult algorithm e start_time t1,
       [Event.timeRead, Event.sessionCreate, Event.sessionCreate,
        Event.cryptoCall "generate_keypair", Event.timeRead])
  | .ok public_key =>
  match ops.encap_secret public_key with
  | .error e =>
      (kemFailureResult algorithm e start_time t1,
       [Event.timeRead, Event.sessionCreate, Event.sessionCreate,
        Event.cryptoCall "generate_keypair", Event.cryptoCall "encap_secret",
        Event.timeRead])
  | .ok (ciphertext, shared_secret_server) =>
  match ops.decap_secret ciphertext with
  | .error e =>
      (kemFailureResult algorithm e start_time t1,
       [Event.timeRead, Event.sessionCreate, Event.sessionCreate,
        Event.cryptoCall "generate_keypair", Event.cryptoCall "encap_secret",
        Event.cryptoCall "decap_secret", Event.timeRead])
  | .ok shared_secret_client =>
      let success := shared_secret_client == shared_secret_server
      ({ algorithm := algorithm
         operation := "KEM Exchange"
         key_size := public_key.length
         execution_time := t1 - start_time
         success := success
         details :=
           [("public_key_size", DValue.nat public_key.length),
            ("ciphertext_size", DValue.nat ciphertext.length),
            ("shared_secret_size", DValue.nat shared_secret_server.length),
            ("secrets_match", DValue.bool success)] },
       [Event.timeRead, Event.sessionCreate, Event.sessionCreate,
        Event.cryptoCall "generate_keypair", Event.cryptoCall "encap_secret",
        Event.cryptoCall "decap_secret", Event.timeRead])

/-- The default message `b"Hello, Quantum World!"` of
`simulate_digital_signature` (line 99); every character is ASCII, so the
UTF-8 bytes are the character codes. -/
def defaultMessage : Bytes :=
  "Hello, Quantum World!".data.map Char.toNat

/-- The failure `CryptoResult` built in the `except` handler of
`simulate_digital_signature` (lines 131-140). -/
def sigFailureResult (algorithm : String) (e : String) (t0 t1 : Rat) : CryptoResult :=
  { algorithm := algorithm
    operation := "Digital Signature"
    key_size := 0
    execution_time := t1 - t0
    success := false
    details := [("error", DValue.str e)] }

/-- `simulate_digital_signature` (quantum-cryptography.py lines 99-140).
`clock n` is the `start_time` reading (line 101), `clock (n+1)` the
reading at line 115 (success) or line 132 (exception). -/
def simulate_digital_signature (p : Provider) (clock : Nat → Rat) (n : Nat)
    (algorithm : String) (message : Bytes := defaultMessage) :
    CryptoResult × List Event :=
  let start_time := clock n
  let t1 := clock (n + 1)
  let ops := p.sig algorithm
  match ops.new_signer with
  | .error e =>
      (sigFailureResult algorithm e start_time t1,
       [Event.timeRead, Event.sessionCreate, Event.timeRead])
  | .ok _ =>
  match ops.new_verifier with
  | .error e =>
      (sigFailureResult algorithm e start_time t1,
       [Event.timeRead, Event.sessionCreate, Event.sessionCreate, Event.timeRead])
  | .ok _ =>
  match ops.generate_keypair with
  | .error e =>
      (sigFailureResult algorithm e start_time t1,
       [Event.timeRead, Event.sessionCreate, Event.sessionCreate,
        Event.cryptoCall "generate_keypair", Event.timeRead])
  | .ok public_key =>
  match ops.sign message with
  | .error e =>
      (sigFailureResult algorithm e start_time t1,
       [Event.timeRead, Event.sessionCreate, Event.sessionCreate,
        Event.cryptoCall "generate_keypair", Event.cryptoCall "sign",
        Event.timeRead])
  | .ok signature =>
  match ops.verify message signature public_key with
  | .error e =>
      (sigFailureResult algorithm e start_time t1,
       [Event.timeRead, Event.sessionCreate, Event.sessionCreate,
        Event.cryptoCall "generate_keypair", Event.cryptoCall "sign",
        Event.cryptoCall "verify", Event.timeRead])
  | .ok is_valid =>
      ({ algorithm := algorithm
         operation := "Digital Signature"
         key_size := public_key.length
         execution_time := t1 - start_time
         success := is_valid
         details :=
           [("public_key_size", DValue.nat public_key.length),
            ("signature_size", DValue.nat signature.length),
            ("message_size", DValue.nat message.length),
            ("verification_success", DValue.bool is_valid)] },
       [Event.timeRead, Event.sessionCreate, Event.sessionCreate,
        Event.cryptoCall "generate_keypair", Event.cryptoCall "sign",
        Event.cryptoCall "verify", Event.timeRead])

/-- `benchmark_algorithm` (quantum-cryptography.py lines 142-160).
`simulate_kem_exchange` and `simulate_digital_signature` are total, so
the `try/except` around each call never fires and every simulate result
is appended.  The KEM simulate consumes clock readings `n`, `n+1`; the
signature simulate consumes the next two readings. -/
def benchmark_algorithm (p : Provider) (clock : Nat → Rat) (n : Nat)
    (algorithm : String) (operation_type : String := "both") :
    List CryptoResult :=
  let kemRequested := operation_type == "both" || operation_type == "kem"
  let sigRequested := operation_type == "both" || operation_type == "sig"
  let results : List CryptoResult :=
    if kemRequested then [(simulate_kem_exchange p clock n algorithm).1] else []
  let n2 := if kemRequested then n + 2 else n
  if sigRequested then
    results ++ [(simulate_digital_signature p clock n2 algorithm defaultMessage).1]
  else results

/-- Python `dict` insertion: overwrite in place when the key exists,
append otherwise. -/
def dictInsert (d : List (String × List CryptoResult)) (k : String)
    (v : List CryptoResult) : List (String × List CryptoResult) :=
  if d.any (fun p => p.1 == k) then
    d.map (fun p => if p.1 == k then (k, v) else p)
  else d ++ [(k, v)]

/-- The loop body of `run_comprehensive_benchmark` (lines 177-184),
generic in the benchmark callee: `bench i a` is the call
`benchmark_algorithm(a)` at iteration `i`, which the `try/except`
assumes may raise (`.error`), in which case the entry is set to `[]`. -/
def runLoop (bench : Nat → String → Except String (List CryptoResult))
    (i : Nat) (acc : List (String × List CryptoResult)) :
    List String → List (String × List CryptoResult)
  | [] => acc
  | a :: rest =>
      runLoop bench (i + 1)
        (dictInsert acc a (match bench i a with | .ok r => r | .error _ => []))
        rest

/-- The default algorithm list of `run_comprehensive_benchmark`
(lines 166-173). -/
def defaultAlgorithms : List String :=
  ["ML-KEM-512", "ML-KEM-768", "ML-KEM-1024", "ML-DSA-44", "ML-DSA-65", "ML-DSA-87"]

/-- `run_comprehensive_benchmark` (quantum-cryptography.py lines
162-186).  Each iteration calls `benchmark_algorithm` with the default
`operation_type="both"`, which consumes four clock readings; iteration
`i` therefore starts at reading `4*i`.  In the embedding
`benchmark_algorithm` is total, so the callee never raises. -/
def run_comprehensive_benchmark (p : Provider) (clock : Nat → Rat)
    (algorithms : List String := defaultAlgorithms) :
    List (String × List CryptoResult) :=
  runLoop (fun i a => Except.ok (benchmark_algorithm p clock (4 * i) a "both"))
    0 [] algorithms

/-- The chain of provider calls made by `simulate_kem_exchange` inside
its `try` block, as an `Except` computation: `.error e` exactly when the
provider raises `e` during the exchange (at the first failing call). -/
def kemProtocol (ops : KemOps) : Except String Unit :=
  match ops.new_client with
  | .error e => .error e
  | .ok _ =>
  match ops.new_server with
  | .error e => .error e
  | .ok _ =>
  match ops.generate_keypair with
  | .error e => .error e
  | .ok pk =>
  match ops.encap_secret pk with
  | .error e => .error e
  | .ok (ct, _) =>
  match ops.decap_secret ct with
  | .error e => .error e
  | .ok _ => .ok ()

/-- The chain of provider calls made by `simulate_digital_signature`
inside its `try` block: `.error e` exactly when the provider raises `e`
during the round-trip (at the first failing call). -/
def sigProtocol (ops : SigOps) (message : Bytes) : Except String Unit :=
  match ops.new_signer with
  | .error e => .error e
  | .ok _ =>
  match ops.new_verifier with
  | .error e => .error e
  | .ok _ =>
  match ops.generate_keypair with
  | .error e => .error e
  | .ok pk =>
  match ops.sign message with
  | .error e => .error e
  | .ok s =>
  match ops.verify message s pk with
  | .error e => .error e
  | .ok _ => .ok ()

/-! ### Concrete provider behaviours used as test fixtures -/

/-- A clock that always reads 0. -/
def zeroClock : Nat → Rat := fun _ => 0

/-- A wall clock that jumps backwards between the first and second
reading (Python `time.time()` is not monotonic). -/
def backClock : Nat → Rat := fun i => if i = 0 then 1 else 0

/-- A wall clock whose second and later readings are 5. -/
def lateClock : Nat → Rat := fun i => if i = 0 then 0 else 5

/-- KEM sessions where every call succeeds and the two shared secrets
agree. -/
def okKemOps : KemOps where
  new_client := .ok ()
  new_server := .ok ()
  generate_keypair := .ok [1, 2]
  encap_secret := fun _ => .ok ([3, 4, 5], [6, 7])
  decap_secret := fun _ => .ok [6, 7]

/-- Signature sessions where every call succeeds and verification
accepts. -/
def okSigOps : SigOps where
  new_signer := .ok ()
  new_verifier := .ok ()
  generate_keypair := .ok [1, 2]
  sign := fun _ => .ok [9, 9, 9]
  verify := fun _ _ _ => .ok true

/-- A provider on which every operation succeeds. -/
def okProvider : Provider := ⟨fun _ => okKemOps, fun _ => okSigOps⟩

/-- KEM sessions where decapsulation returns a different secret than
encapsulation: a verification mismatch, raising no exception. -/
def mismatchKemOps : KemOps := { okKemOps with decap_secret := fun _ => .ok [0] }

/-- Provider exhibiting a KEM shared-secret mismatch. -/
def mismatchProvider : Provider := ⟨fun _ => mismatchKemOps, fun _ => okSigOps⟩

/-- KEM sessions whose construction (and every call) raises `e`. -/
def failingKemOps (e : String) : KemOps where
  new_client := .error e
  new_server := .error e
  generate_keypair := .error e
  encap_secret := fun _ => .error e
  decap_secret := fun _ => .error e

/-- Signature sessions whose construction (and every call) raises `e`. -/
def failingSigOps (e : String) : SigOps where
  new_signer := .error e
  new_verifier := .error e
  generate_keypair := .error e
  sign := fun _ => .error e
  verify := fun _ _ _ => .error e

/-- A provider that rejects every algorithm outright. -/
def failingProvider (e : String) : Provider :=
  ⟨fun _ => failingKemOps e, fun _ => failingSigOps e⟩

/-- A provider supporting only KEM: signature session construction
raises, as `oqs.Signature` does on a KEM-only mechanism name. -/
def kemOnlyProvider : Provider :=
  ⟨fun _ => okKemOps, fun _ => failingSigOps "mechanism not supported"⟩

/-- A provider rejecting exactly the name `"Bad-Alg"` and succeeding on
every other name. -/
def mixedProvider : Provider :=
  ⟨fun name => if name = "Bad-Alg" then failingKemOps "rejected" else okKemOps,
   fun name => if name = "Bad-Alg" then failingSigOps "rejected" else okSigOps⟩

/-- The entries the orchestrator loop appends when every key it inserts
is fresh: one entry per algorithm, in input order, with the iteration
counter threaded through.  `runLoop` on a duplicate-free list reduces to
this (see `runLoop_eq_append_runFresh`). -/
def runFresh (bench : Nat → String → Except String (List CryptoResult)) (i : Nat) :
    List String → List (String × List CryptoResult)
  | [] => []
  | a :: rest =>
      (a, match bench i a with | .ok r => r | .error _ => []) ::
        runFresh bench (i + 1) rest

/-! ### Branch lemmas: `simulate_kem_exchange` -/

theorem simulate_kem_client_error (p : Provider) (c : Nat → Rat) (n : Nat)
    (a e : String) (h : (p.kem a).new_client = .error e) :
    simulate_kem_exchange p c n a =
      (kemFailureResult a e (c n) (c (n + 1)),
       [Event.timeRead, Event.sessionCreate, Event.timeRead]) := by
  simp only [simulate_kem_exchange, h]

theorem simulate_kem_success (p : Provider) (c : Nat → Rat) (n : Nat)
    (a : String) (pk ct ssB ssA : Bytes)
    (h1 : (p.kem a).new_client = .ok ())
    (h2 : (p.kem a).new_server = .ok ())
    (h3 : (p.kem a).generate_keypair = .ok pk)
    (h4 : (p.kem a).encap_secret pk = .ok (ct, ssB))
    (h5 : (p.kem a).decap_secret ct = .ok ssA) :
    simulate_kem_exchange p c n a =
      ({ algorithm := a
         operation := "KEM Exchange"
         key_size := pk.length
         execution_time := c (n + 1) - c n
         success := ssA == ssB
         details :=
           [("public_key_size", DValue.nat pk.length),
            ("ciphertext_size", DValue.nat ct.length),
            ("shared_secret_size", DValue.nat ssB.length),
            ("secrets_match", DValue.bool (ssA == ssB))] },
       [Event.timeRead, Event.sessionCreate, Event.sessionCreate,
        Event.cryptoCall "generate_keypair", Event.cryptoCall "encap_secret",
        Event.cryptoCall "decap_secret", Event.timeRead]) := by
  simp only [simulate_kem_exchange, h1, h2, h3, h4, h5]

theorem simulate_kem_error (p : Provider) (c : Nat → Rat) (n : Nat)
    (a e : String) (h : kemProtocol (p.kem a) = .error e) :
    (simulate_kem_exchange p c n a).1 = kemFailureResult a e (c n) (c (n + 1)) := by
  unfold kemProtocol at h
  cases h1 : (p.kem a).new_client with
  | error e1 =>
      simp only [h1] at h
      cases h
      simp only [simulate_kem_exchange, h1]
  | ok u =>
      simp only [h1] at h
      cases h2 : (p.kem a).new_server with
      | error e2 =>
          simp only [h2] at h
          cases h
          simp only [simulate_kem_exchange, h1, h2]
      | ok v =>
          simp only [h2] at h
          cases h3 : (p.kem a).generate_keypair with
          | error e3 =>
              simp only [h3] at h
              cases h
              simp only [simulate_kem_exchange, h1, h2, h3]
          | ok pk =>
              simp only [h3] at h
              cases h4 : (p.kem a).encap_secret pk with
              | error e4 =>
                  simp only [h4] at h
                  cases h
                  simp only [simulate_kem_exchange, h1, h2, h3, h4]
              | ok cs =>
                  simp only [h4] at h
                  cases h5 : (p.kem a).decap_secret cs.1 with
                  | error e5 =>
                      simp only [h5] at h
                      cases h
                      simp only [simulate_kem_exchange, h1, h2, h3, h4, h5]
                  | ok ss =>
                      simp only [h5] at h
                      cases h

/-! ### Branch lemmas: `simulate_digital_signature` -/

theorem simulate_sig_signer_error (p : Provider) (c : Nat → Rat) (n : Nat)
    (a e : String) (m : Bytes) (h : (p.sig a).new_signer = .error e) :
    simulate_digital_signature p c n a m =
      (sigFailureResult a e (c n) (c (n + 1)),
       [Event.timeRead, Event.sessionCreate, Event.timeRead]) := by
  simp only [simulate_digital_signature, h]

theorem simulate_sig_success (p : Provider) (c : Nat → Rat) (n : Nat)
    (a : String) (m pk s : Bytes) (valid : Bool)
    (h1 : (p.sig a).new_signer = .ok ())
    (h2 : (p.sig a).new_verifier = .ok ())
    (h3 : (p.sig a).generate_keypair = .ok pk)
    (h4 : (p.sig a).sign m = .ok s)
    (h5 : (p.sig a).verify m s pk = .ok valid) :
    simulate_digital_signature p c n a m =
      ({ algorithm := a
         operation := "Digital Signature"
         key_size := pk.length
         execution_time := c (n + 1) - c n
         success := valid
         details :=
           [("public_key_size", DValue.nat pk.length),
            ("signature_size", DValue.nat s.length),
            ("message_size", DValue.nat m.length),
            ("verification_success", DValue.bool valid)] },
       [Event.timeRead, Event.sessionCreate, Event.sessionCreate,
        Event.cryptoCall "generate_keypair", Event.cryptoCall "sign",
        Event.cryptoCall "verify", Event.timeRead]) := by
  simp only [simulate_digital_signature, h1, h2, h3, h4, h5]

theorem simulate_sig_error (p : Provider) (c : Nat → Rat) (n : Nat)
    (a e : String) (m : Bytes) (h : sigProtocol (p.sig a) m = .error e) :
    (simulate_digital_signature p c n a m).1 =
      sigFailureResult a e (c n) (c (n + 1)) := by
  unfold sigProtocol at h
  cases h1 : (p.sig a).new_signer with
  | error e1 =>
      simp only [h1] at h
      cases h
      simp only [simulate_digital_signature, h1]
  | ok u =>
      simp only [h1] at h
      cases h2 : (p.sig a).new_verifier with
      | error e2 =>
          simp only [h2] at h
          cases h
          simp only [simulate_digital_signature, h1, h2]
      | ok v =>
          simp only [h2] at h
          cases h3 : (p.sig a).generate_keypair with
          | error e3 =>
              simp only [h3] at h
              cases h
              simp only [simulate_digital_signature, h1, h2, h3]
          | ok pk =>
              simp only [h3] at h
              cases h4 : (p.sig a).sign m with
              | error e4 =>
                  simp only [h4] at h
                  cases h
                  simp only [simulate_digital_signature, h1, h2, h3, h4]
              | ok s =>
                  simp only [h4] at h
                  cases h5 : (p.sig a).verify m s pk with
                  | error e5 =>
                      simp only [h5] at h
                      cases h
                      simp only [simulate_digital_signature, h1, h2, h3, h4, h5]
                  | ok valid =>
                      simp only [h5] at h
                      cases h

/-! ### C2: provider exceptions never escape the Runner -/

/-- C2: for every algorithm name and every exception raised by the
provider during a KEM exchange or signature round-trip,
`simulate_kem_exchange` and `simulate_digital_signature` never propagate
the exception (they are total functions into `CryptoResult`); they
return a result with `success = false` whose details carry the
exception's text as a human-readable error description. -/
theorem provider_errors_captured_as_failed_results
    (p : Provider) (clock : Nat → Rat) (n : Nat) (a : String) (m : Bytes)
    (eK eS : String) :
    (kemProtocol (p.kem a) = .error eK →
      (simulate_kem_exchange p clock n a).1.success = false ∧
      (simulate_kem_exchange p clock n a).1.details = [("error", DValue.str eK)]) ∧
    (sigProtocol (p.sig a) m = .error eS →
      (simulate_digital_signature p clock n a m).1.success = false ∧
      (simulate_digital_signature p clock n a m).1.details = [("error", DValue.str eS)]) := by
  constructor
  · intro h
    rw [simulate_kem_error p clock n a eK h]
    exact ⟨rfl, rfl⟩
  · intro h
    rw [simulate_sig_error p clock n a eS m h]
    exact ⟨rfl, rfl⟩

/-- Witness for C2 at a provider whose every call raises `"boom"`. -/
theorem provider_errors_captured_as_failed_results_witness :
    ((simulate_kem_exchange (failingProvider "boom") zeroClock 0 "X").1.success = false ∧
     (simulate_kem_exchange (failingProvider "boom") zeroClock 0 "X").1.details
        = [("error", DValue.str "boom")]) ∧
    ((simulate_digital_signature (failingProvider "boom") zeroClock 0 "X" defaultMessage).1.success = false ∧
     (simulate_digital_signature (failingProvider "boom") zeroClock 0 "X" defaultMessage).1.details
        = [("error", DValue.str "boom")]) :=
  ⟨(provider_errors_captured_as_failed_results (failingProvider "boom") zeroClock 0 "X"
      defaultMessage "boom" "boom").1 rfl,
   (provider_errors_captured_as_failed_results (failingProvider "boom") zeroClock 0 "X"
      defaultMessage "boom" "boom").2 rfl⟩

/-! ### C5: the KEM exchange protocol -/

/-- C5: when no provider call raises, `simulate_kem_exchange` runs the
protocol keypair-generation, encapsulation against the public key,
decapsulation of the ciphertext; the success flag is true iff the two
shared secrets are byte-equal, and the result records the sizes of the
public key, ciphertext and shared secret. -/
theorem kem_exchange_protocol_correct
    (p : Provider) (clock : Nat → Rat) (n : Nat) (a : String)
    (pk ct ssB ssA : Bytes)
    (h1 : (p.kem a).new_client = .ok ())
    (h2 : (p.kem a).new_server = .ok ())
    (h3 : (p.kem a).generate_keypair = .ok pk)
    (h4 : (p.kem a).encap_secret pk = .ok (ct, ssB))
    (h5 : (p.kem a).decap_secret ct = .ok ssA) :
    simulate_kem_exchange p clock n a =
      ({ algorithm := a
         operation := "KEM Exchange"
         key_size := pk.length
         execution_time := clock (n + 1) - clock n
         success := ssA == ssB
         details :=
           [("public_key_size", DValue.nat pk.length),
            ("ciphertext_size", DValue.nat ct.length),
            ("shared_secret_size", DValue.nat ssB.length),
            ("secrets_match", DValue.bool (ssA == ssB))] },
       [Event.timeRead, Event.sessionCreate, Event.sessionCreate,
        Event.cryptoCall "generate_keypair", Event.cryptoCall "encap_secret",
        Event.cryptoCall "decap_secret", Event.timeRead]) ∧
    ((simulate_kem_exchange p clock n a).1.success = true ↔ ssA = ssB) := by
  have h := simulate_kem_success p clock n a pk ct ssB ssA h1 h2 h3 h4 h5
  refine ⟨h, ?_⟩
  rw [h]
  simp

/-- Witness for C5 on a fully succeeding provider with matching
secrets. -/
theorem kem_exchange_protocol_correct_witness :
    simulate_kem_exchange okProvider zeroClock 0 "ML-KEM-512" =
      ({ algorithm := "ML-KEM-512"
         operation := "KEM Exchange"
         key_size := List.length [1, 2]
         execution_time := zeroClock (0 + 1) - zeroClock 0
         success := ([6, 7] : Bytes) == [6, 7]
         details :=
           [("public_key_size", DValue.nat (List.length [1, 2])),
            ("ciphertext_size", DValue.nat (List.length [3, 4, 5])),
            ("shared_secret_size", DValue.nat (List.length [6, 7])),
            ("secrets_match", DValue.bool (([6, 7] : Bytes) == [6, 7]))] },
       [Event.timeRead, Event.sessionCreate, Event.sessionCreate,
        Event.cryptoCall "generate_keypair", Event.cryptoCall "encap_secret",
        Event.cryptoCall "decap_secret", Event.timeRead]) ∧
    ((simulate_kem_exchange okProvider zeroClock 0 "ML-KEM-512").1.success = true ↔
      ([6, 7] : Bytes) = [6, 7]) :=
  kem_exchange_protocol_correct okProvider zeroClock 0 "ML-KEM-512"
    [1, 2] [3, 4, 5] [6, 7] [6, 7] rfl rfl rfl rfl rfl

/-! ### C6: the digital signature protocol -/

/-- C6: when no provider call raises, `simulate_digital_signature` has
the signer generate a keypair and sign the message, has the verifier
check the signature against the message and the signer's public key,
and the success flag equals the verifier's boolean verdict; the result
records the sizes of the public key, signature and message. -/
theorem digital_signature_protocol_correct
    (p : Provider) (clock : Nat → Rat) (n : Nat) (a : String)
    (m pk s : Bytes) (valid : Bool)
    (h1 : (p.sig a).new_signer = .ok ())
    (h2 : (p.sig a).new_verifier = .ok ())
    (h3 : (p.sig a).generate_keypair = .ok pk)
    (h4 : (p.sig a).sign m = .ok s)
    (h5 : (p.sig a).verify m s pk = .ok valid) :
    simulate_digital_signature p clock n a m =
      ({ algorithm := a
         operation := "Digital Signature"
         key_size := pk.length
         execution_time := clock (n + 1) - clock n
         success := valid
         details :=
           [("public_key_size", DValue.nat pk.length),
            ("signature_size", DValue.nat s.length),
            ("message_size", DValue.nat m.length),
            ("verification_success", DValue.bool valid)] },
       [Event.timeRead, Event.sessionCreate, Event.sessionCreate,
        Event.cryptoCall "generate_keypair", Event.cryptoCall "sign",
        Event.cryptoCall "verify", Event.timeRead]) ∧
    ((simulate_digital_signature p clock n a m).1.success = true ↔ valid = true) := by
  have h := simulate_sig_success p clock n a m pk s valid h1 h2 h3 h4 h5
  refine ⟨h, ?_⟩
  rw [h]

/-- Witness for C6 on a fully succeeding provider whose verifier
accepts, at the fixed test message. -/
theorem digital_signature_protocol_correct_witness :
    simulate_digital_signature okProvider zeroClock 0 "ML-DSA-44" defaultMessage =
      ({ algorithm := "ML-DSA-44"
         operation := "Digital Signature"
         key_size := List.length [1, 2]
         execution_time := zeroClock (0 + 1) - zeroClock 0
         success := true
         details :=
           [("public_key_size", DValue.nat (List.length [1, 2])),
            ("signature_size", DValue.nat (List.length [9, 9, 9])),
            ("message_size", DValue.nat defaultMessage.length),
            ("verification_success", DValue.bool true)] },
       [Event.timeRead, Event.sessionCreate, Event.sessionCreate,
        Event.cryptoCall "generate_keypair", Event.cryptoCall "sign",
        Event.cryptoCall "verify", Event.timeRead]) ∧
    ((simulate_digital_signature okProvider zeroClock 0 "ML-DSA-44" defaultMessage).1.success = true ↔
      true = true) :=
  digital_signature_protocol_correct okProvider zeroClock 0 "ML-DSA-44"
    defaultMessage [1, 2] [9, 9, 9] true rfl rfl rfl rfl rfl

/-! ### Inversion of the protocol chains and timing lemmas -/

theorem kemProtocol_ok (ops : KemOps) (h : kemProtocol ops = .ok ()) :
    ∃ pk ct ssB ssA, ops.new_client = .ok () ∧ ops.new_server = .ok () ∧
      ops.generate_keypair = .ok pk ∧ ops.encap_secret pk = .ok (ct, ssB) ∧
      ops.decap_secret ct = .ok ssA := by
  unfold kemProtocol at h
  cases h1 : ops.new_client with
  | error e1 => simp only [h1] at h; cases h
  | ok u =>
      cases u
      simp only [h1] at h
      cases h2 : ops.new_server with
      | error e2 => simp only [h2] at h; cases h
      | ok v =>
          cases v
          simp only [h2] at h
          cases h3 : ops.generate_keypair with
          | error e3 => simp only [h3] at h; cases h
          | ok pk =>
              simp only [h3] at h
              cases h4 : ops.encap_secret pk with
              | error e4 => simp only [h4] at h; cases h
              | ok cs =>
                  simp only [h4] at h
                  cases h5 : ops.decap_secret cs.1 with
                  | error e5 => simp only [h5] at h; cases h
                  | ok ss =>
                      exact ⟨pk, cs.1, cs.2, ss, rfl, rfl, rfl, by rw [h4], h5⟩

theorem sigProtocol_ok (ops : SigOps) (m : Bytes) (h : sigProtocol ops m = .ok ()) :
    ∃ pk s valid, ops.new_signer = .ok () ∧ ops.new_verifier = .ok () ∧
      ops.generate_keypair = .ok pk ∧ ops.sign m = .ok s ∧
      ops.verify m s pk = .ok valid := by
  unfold sigProtocol at h
  cases h1 : ops.new_signer with
  | error e1 => simp only [h1] at h; cases h
  | ok u =>
      cases u
      simp only [h1] at h
      cases h2 : ops.new_verifier with
      | error e2 => simp only [h2] at h; cases h
      | ok v =>
          cases v
          simp only [h2] at h
          cases h3 : ops.generate_keypair with
          | error e3 => simp only [h3] at h; cases h
          | ok pk =>
              simp only [h3] at h
              cases h4 : ops.sign m with
              | error e4 => simp only [h4] at h; cases h
              | ok s =>
                  simp only [h4] at h
                  cases h5 : ops.verify m s pk with
                  | error e5 => simp only [h5] at h; cases h
                  | ok valid => exact ⟨pk, s, valid, rfl, rfl, rfl, rfl, h5⟩

theorem simulate_kem_time_and_trace (p : Provider) (c : Nat → Rat) (n : Nat)
    (a : String) :
    (simulate_kem_exchange p c n a).1.execution_time = c (n + 1) - c n ∧
    (simulate_kem_exchange p c n a).2.head? = some Event.timeRead ∧
    (simulate_kem_exchange p c n a).2.getLast? = some Event.timeRead := by
  refine ⟨?_, ?_, ?_⟩ <;>
    (simp only [simulate_kem_exchange]; repeat' split) <;> rfl

theorem simulate_sig_time_and_trace (p : Provider) (c : Nat → Rat) (n : Nat)
    (a : String) (m : Bytes) :
    (simulate_digital_signature p c n a m).1.execution_time = c (n + 1) - c n ∧
    (simulate_digital_signature p c n a m).2.head? = some Event.timeRead ∧
    (simulate_digital_signature p c n a m).2.getLast? = some Event.timeRead := by
  refine ⟨?_, ?_, ?_⟩ <;>
    (simp only [simulate_digital_signature]; repeat' split) <;> rfl

/-! ### C1: shape of successful and failed results -/

/-- C1 counterexample: a shared-secret mismatch yields `success = false`
with *no* error description and a *nonzero* `key_size`, refuting the
claim that every failed result carries an error description and
`key_size = 0`. -/
theorem kem_mismatch_refutes_failed_result_shape :
    (simulate_kem_exchange mismatchProvider zeroClock 0 "ML-KEM-512").1.success = false ∧
    (simulate_kem_exchange mismatchProvider zeroClock 0 "ML-KEM-512").1.details.lookup "error"
      = none ∧
    (simulate_kem_exchange mismatchProvider zeroClock 0 "ML-KEM-512").1.key_size ≠ 0 :=
  ⟨rfl, rfl, by decide⟩

/-- C1 (amended): every successful result carries the size metrics and
no error description; every failed result is either an exception-path
result (details are exactly an error description, `key_size = 0`) or a
verification-mismatch result (all size metrics present, `key_size`
equal to the recorded public-key size — which may be zero — no error
description, and the match/verification flag recorded as false). -/
theorem result_invariant_success_metrics_failure_shapes
    (p : Provider) (clock : Nat → Rat) (n : Nat) (a : String) (m : Bytes) :
    (((simulate_kem_exchange p clock n a).1.success = true →
      ((simulate_kem_exchange p clock n a).1.details.lookup "public_key_size").isSome = true ∧
      ((simulate_kem_exchange p clock n a).1.details.lookup "ciphertext_size").isSome = true ∧
      ((simulate_kem_exchange p clock n a).1.details.lookup "shared_secret_size").isSome = true ∧
      (simulate_kem_exchange p clock n a).1.details.lookup "error" = none) ∧
    ((simulate_kem_exchange p clock n a).1.success = false →
      (∃ e, (simulate_kem_exchange p clock n a).1.details = [("error", DValue.str e)] ∧
        (simulate_kem_exchange p clock n a).1.key_size = 0) ∨
      ((∃ kLen, (simulate_kem_exchange p clock n a).1.key_size = kLen ∧
          (simulate_kem_exchange p clock n a).1.details.lookup "public_key_size"
            = some (DValue.nat kLen)) ∧
       ((simulate_kem_exchange p clock n a).1.details.lookup "ciphertext_size").isSome = true ∧
       ((simulate_kem_exchange p clock n a).1.details.lookup "shared_secret_size").isSome = true ∧
       (simulate_kem_exchange p clock n a).1.details.lookup "secrets_match"
          = some (DValue.bool false) ∧
       (simulate_kem_exchange p clock n a).1.details.lookup "error" = none))) ∧
    (((simulate_digital_signature p clock n a m).1.success = true →
      ((simulate_digital_signature p clock n a m).1.details.lookup "public_key_size").isSome = true ∧
      ((simulate_digital_signature p clock n a m).1.details.lookup "signature_size").isSome = true ∧
      ((simulate_digital_signature p clock n a m).1.details.lookup "message_size").isSome = true ∧
      (simulate_digital_signature p clock n a m).1.details.lookup "error" = none) ∧
    ((simulate_digital_signature p clock n a m).1.success = false →
      (∃ e, (simulate_digital_signature p clock n a m).1.details = [("error", DValue.str e)] ∧
        (simulate_digital_signature p clock n a m).1.key_size = 0) ∨
      ((∃ kLen, (simulate_digital_signature p clock n a m).1.key_size = kLen ∧
          (simulate_digital_signature p clock n a m).1.details.lookup "public_key_size"
            = some (DValue.nat kLen)) ∧
       ((simulate_digital_signature p clock n a m).1.details.lookup "signature_size").isSome = true ∧
       ((simulate_digital_signature p clock n a m).1.details.lookup "message_size").isSome = true ∧
       (simulate_digital_signature p clock n a m).1.details.lookup "verification_success"
          = some (DValue.bool false) ∧
       (simulate_digital_signature p clock n a m).1.details.lookup "error" = none))) := by
  constructor
  · cases hP : kemProtocol (p.kem a) with
    | error e =>
        have hr := simulate_kem_error p clock n a e hP
        rw [hr]
        exact ⟨fun hs => Bool.noConfusion hs, fun _ => Or.inl ⟨e, rfl, rfl⟩⟩
    | ok u =>
        cases u
        obtain ⟨pk, ct, ssB, ssA, h1, h2, h3, h4, h5⟩ := kemProtocol_ok _ hP
        have hr := simulate_kem_success p clock n a pk ct ssB ssA h1 h2 h3 h4 h5
        rw [hr]
        refine ⟨fun _ => ⟨rfl, rfl, rfl, rfl⟩,
          fun hs => Or.inr ⟨⟨pk.length, rfl, rfl⟩, rfl, rfl, ?_, rfl⟩⟩
        have hss : (ssA == ssB) = false := hs
        rw [← hss]
        rfl
  · cases hP : sigProtocol (p.sig a) m with
    | error e =>
        have hr := simulate_sig_error p clock n a e m hP
        rw [hr]
        exact ⟨fun hs => Bool.noConfusion hs, fun _ => Or.inl ⟨e, rfl, rfl⟩⟩
    | ok u =>
        cases u
        obtain ⟨pk, s, valid, h1, h2, h3, h4, h5⟩ := sigProtocol_ok _ m hP
        have hr := simulate_sig_success p clock n a m pk s valid h1 h2 h3 h4 h5
        rw [hr]
        refine ⟨fun _ => ⟨rfl, rfl, rfl, rfl⟩,
          fun hs => Or.inr ⟨⟨pk.length, rfl, rfl⟩, rfl, rfl, ?_, rfl⟩⟩
        have hv : valid = false := hs
        rw [hv]
        rfl

/-- Witness for C1 (amended): the success branch exercised on a fully
succeeding provider, the failure branch on a mismatching provider. -/
theorem result_invariant_success_metrics_failure_shapes_witness :
    (((simulate_kem_exchange okProvider zeroClock 0 "A").1.details.lookup "public_key_size").isSome = true ∧
     ((simulate_kem_exchange okProvider zeroClock 0 "A").1.details.lookup "ciphertext_size").isSome = true ∧
     ((simulate_kem_exchange okProvider zeroClock 0 "A").1.details.lookup "shared_secret_size").isSome = true ∧
     (simulate_kem_exchange okProvider zeroClock 0 "A").1.details.lookup "error" = none) ∧
    ((∃ e, (simulate_kem_exchange mismatchProvider zeroClock 0 "A").1.details
          = [("error", DValue.str e)] ∧
        (simulate_kem_exchange mismatchProvider zeroClock 0 "A").1.key_size = 0) ∨
     ((∃ kLen, (simulate_kem_exchange mismatchProvider zeroClock 0 "A").1.key_size = kLen ∧
         (simulate_kem_exchange mismatchProvider zeroClock 0 "A").1.details.lookup "public_key_size"
           = some (DValue.nat kLen)) ∧
      ((simulate_kem_exchange mismatchProvider zeroClock 0 "A").1.details.lookup "ciphertext_size").isSome = true ∧
      ((simulate_kem_exchange mismatchProvider zeroClock 0 "A").1.details.lookup "shared_secret_size").isSome = true ∧
      (simulate_kem_exchange mismatchProvider zeroClock 0 "A").1.details.lookup "secrets_match"
         = some (DValue.bool false) ∧
      (simulate_kem_exchange mismatchProvider zeroClock 0 "A").1.details.lookup "error" = none)) :=
  ⟨(result_invariant_success_metrics_failure_shapes okProvider zeroClock 0 "A"
      defaultMessage).1.1 rfl,
   (result_invariant_success_metrics_failure_shapes mismatchProvider zeroClock 0 "A"
      defaultMessage).1.2 rfl⟩

/-! ### C3: unsupported operation kinds and unknown algorithm names -/

/-- C3 counterexample: signature operations on a KEM-only name are *not*
skipped silently — a failed result with an error description is
recorded — and an algorithm absent from the enabled set gets a report
entry with two failed operations, not zero. -/
theorem unsupported_operation_recorded_not_skipped :
    (benchmark_algorithm kemOnlyProvider zeroClock 0 "ML-KEM-512" "both").length = 2 ∧
    ((benchmark_algorithm kemOnlyProvider zeroClock 0 "ML-KEM-512" "both").getLast?).map
        (fun r => (r.success, r.details)) =
      some (false, [("error", DValue.str "mechanism not supported")]) ∧
    ((run_comprehensive_benchmark (failingProvider "not enabled") zeroClock
        ["Fake-Alg"]).lookup "Fake-Alg").map List.length = some 2 :=
  ⟨rfl, rfl, rfl⟩

/-- C3 (amended): a requested operation kind the provider does not
support for a name produces an appended failed `CryptoResult` carrying
the provider's error (not a silent skip), and an algorithm name absent
from the enabled set yields a report entry with one failed result per
requested operation — two for `"both"` — rather than zero attempted
operations. -/
theorem unsupported_algorithm_records_failed_entries
    (p : Provider) (clock : Nat → Rat) (n : Nat) (a : String)
    (eK eS : String) (hS : (p.sig a).new_signer = .error eS) :
    benchmark_algorithm p clock n a "both" =
      [(simulate_kem_exchange p clock n a).1,
       sigFailureResult a eS (clock (n + 2)) (clock (n + 3))] ∧
    ((p.kem a).new_client = .error eK →
      benchmark_algorithm p clock n a "both" =
        [kemFailureResult a eK (clock n) (clock (n + 1)),
         sigFailureResult a eS (clock (n + 2)) (clock (n + 3))] ∧
      (run_comprehensive_benchmark p clock [a]).lookup a =
        some [kemFailureResult a eK (clock 0) (clock 1),
              sigFailureResult a eS (clock 2) (clock 3)]) := by
  have hbench : ∀ k, benchmark_algorithm p clock k a "both" =
      [(simulate_kem_exchange p clock k a).1,
       sigFailureResult a eS (clock (k + 2)) (clock (k + 3))] := by
    intro k
    have hsig := simulate_sig_signer_error p clock (k + 2) a eS defaultMessage hS
    simp [benchmark_algorithm, hsig]
  refine ⟨hbench n, fun hK => ⟨?_, ?_⟩⟩
  · rw [hbench n, simulate_kem_client_error p clock n a eK hK]
  · have h0 := hbench 0
    rw [simulate_kem_client_error p clock 0 a eK hK] at h0
    simp [run_comprehensive_benchmark, runLoop, dictInsert, h0]

/-- Witness for C3 (amended) on a provider that rejects every
mechanism. -/
theorem unsupported_algorithm_records_failed_entries_witness :
    benchmark_algorithm (failingProvider "not enabled") zeroClock 0 "Fake-Alg" "both" =
      [kemFailureResult "Fake-Alg" "not enabled" (zeroClock 0) (zeroClock 1),
       sigFailureResult "Fake-Alg" "not enabled" (zeroClock 2) (zeroClock 3)] ∧
    (run_comprehensive_benchmark (failingProvider "not enabled") zeroClock
        ["Fake-Alg"]).lookup "Fake-Alg" =
      some [kemFailureResult "Fake-Alg" "not enabled" (zeroClock 0) (zeroClock 1),
            sigFailureResult "Fake-Alg" "not enabled" (zeroClock 2) (zeroClock 3)] :=
  (unsupported_algorithm_records_failed_entries (failingProvider "not enabled")
    zeroClock 0 "Fake-Alg" "not enabled" "not enabled" rfl).2 rfl

/-! ### C4: what `execution_time` measures -/

/-- C4 counterexample: with the non-monotonic wall clock jumping
backwards, `execution_time` is negative (refuting `>= 0`); and when
session construction fails, the full wall-clock interval is still
charged even though no cryptographic call ran (refuting that only the
cryptographic calls are timed). -/
theorem execution_time_negative_on_clock_rollback :
    (simulate_kem_exchange okProvider backClock 0 "X").1.execution_time < 0 ∧
    (simulate_kem_exchange (failingProvider "no such mechanism") lateClock 0 "X").1.execution_time = 5 ∧
    (simulate_kem_exchange (failingProvider "no such mechanism") lateClock 0 "X").2 =
      [Event.timeRead, Event.sessionCreate, Event.timeRead] := by
  refine ⟨?_, ?_, rfl⟩
  · have h := simulate_kem_success okProvider backClock 0 "X" [1, 2] [3, 4, 5] [6, 7] [6, 7]
      rfl rfl rfl rfl rfl
    rw [h]
    norm_num [backClock]
  · have h := simulate_kem_client_error (failingProvider "no such mechanism") lateClock 0 "X"
      "no such mechanism" rfl
    rw [h]
    norm_num [kemFailureResult, lateClock]

/-- C4 (amended): `execution_time` is the difference between the two
wall-clock (`time.time()`) readings — the first taken at function entry
*before* session construction, the last after completion or at the
failure point, as the traces' first and last events show — so it
includes session setup, and it is non-negative exactly when the wall
clock did not move backwards between the two readings. -/
theorem execution_time_spans_wall_clock_readings
    (p : Provider) (clock : Nat → Rat) (n : Nat) (a : String) (m : Bytes) :
    (simulate_kem_exchange p clock n a).1.execution_time = clock (n + 1) - clock n ∧
    (simulate_digital_signature p clock n a m).1.execution_time = clock (n + 1) - clock n ∧
    (clock n ≤ clock (n + 1) → 0 ≤ (simulate_kem_exchange p clock n a).1.execution_time) ∧
    (clock n ≤ clock (n + 1) → 0 ≤ (simulate_digital_signature p clock n a m).1.execution_time) ∧
    (simulate_kem_exchange p clock n a).2.head? = some Event.timeRead ∧
    (simulate_digital_signature p clock n a m).2.head? = some Event.timeRead ∧
    (simulate_kem_exchange p clock n a).2.getLast? = some Event.timeRead ∧
    (simulate_digital_signature p clock n a m).2.getLast? = some Event.timeRead := by
  obtain ⟨hk1, hk2, hk3⟩ := simulate_kem_time_and_trace p clock n a
  obtain ⟨hs1, hs2, hs3⟩ := simulate_sig_time_and_trace p clock n a m
  refine ⟨hk1, hs1, fun h => ?_, fun h => ?_, hk2, hs2, hk3, hs3⟩
  · rw [hk1]; exact sub_nonneg.mpr h
  · rw [hs1]; exact sub_nonneg.mpr h

/-- Witness for C4 (amended) at a constant clock. -/
theorem execution_time_spans_wall_clock_readings_witness :
    0 ≤ (simulate_kem_exchange okProvider zeroClock 0 "X").1.execution_time ∧
    0 ≤ (simulate_digital_signature okProvider zeroClock 0 "X" defaultMessage).1.execution_time ∧
    (simulate_kem_exchange okProvider zeroClock 0 "X").2.head? = some Event.timeRead :=
  ⟨(execution_time_spans_wall_clock_readings okProvider zeroClock 0 "X"
      defaultMessage).2.2.1 (le_refl 0),
   (execution_time_spans_wall_clock_readings okProvider zeroClock 0 "X"
      defaultMessage).2.2.2.1 (le_refl 0),
   (execution_time_spans_wall_clock_readings okProvider zeroClock 0 "X"
      defaultMessage).2.2.2.2.1⟩

/-! ### C10: unknown operation_type -/

/-- C10: an `operation_type` outside `both`/`kem`/`sig` makes
`benchmark_algorithm` return the empty list, attempting no cryptographic
operation. -/
theorem unknown_operation_type_returns_empty
    (p : Provider) (clock : Nat → Rat) (n : Nat) (a op : String)
    (h1 : op ≠ "both") (h2 : op ≠ "kem") (h3 : op ≠ "sig") :
    benchmark_algorithm p clock n a op = [] := by
  simp [benchmark_algorithm, h1, h2, h3]

/-- Witness for C10 at `operation_type = "benchmark"`. -/
theorem unknown_operation_type_returns_empty_witness :
    benchmark_algorithm okProvider zeroClock 0 "ML-KEM-512" "benchmark" = [] :=
  unknown_operation_type_returns_empty okProvider zeroClock 0 "ML-KEM-512" "benchmark"
    (by decide) (by decide) (by decide)

/-! ### Dictionary and orchestrator-loop lemmas -/

theorem lookup_map_replace (d : List (String × List CryptoResult)) (k : String)
    (v : List CryptoResult) (h : d.any (fun p => p.1 == k) = true) :
    (d.map (fun p => if p.1 == k then (k, v) else p)).lookup k = some v := by
  induction d with
  | nil => simp at h
  | cons hd tl ih =>
      obtain ⟨k1, v1⟩ := hd
      simp only [List.map_cons]
      by_cases hk : k1 = k
      · subst hk
        rw [if_pos (beq_self_eq_true k1)]
        simp only [List.lookup, beq_self_eq_true]
      · have hne : (k1 == k) = false := by simp [hk]
        have hkne : (k == k1) = false := by
          simp only [beq_eq_false_iff_ne, ne_eq]
          exact fun hq => hk hq.symm
        have htl : tl.any (fun p => p.1 == k) = true := by
          simpa [List.any_cons, hne] using h
        rw [if_neg (by simp [hne])]
        simp only [List.lookup, hkne]
        exact ih htl

theorem lookup_append_fresh (d : List (String × List CryptoResult)) (k : String)
    (v : List CryptoResult) (h : d.any (fun p => p.1 == k) = false) :
    (d ++ [(k, v)]).lookup k = some v := by
  induction d with
  | nil => simp only [List.nil_append, List.lookup, beq_self_eq_true]
  | cons hd tl ih =>
      obtain ⟨k1, v1⟩ := hd
      have hne : (k1 == k) = false := by
        cases hq : (k1 == k) with
        | false => rfl
        | true => rw [List.any_cons, hq, Bool.true_or] at h; cases h
      have h2 : tl.any (fun p => p.1 == k) = false := by
        simpa [List.any_cons, hne] using h
      have hkne : (k == k1) = false := by
        simp only [beq_eq_false_iff_ne, ne_eq] at hne ⊢
        exact fun hq => hne hq.symm
      simp only [List.cons_append, List.lookup, hkne]
      exact ih h2

theorem lookup_dictInsert_self (d : List (String × List CryptoResult)) (k : String)
    (v : List CryptoResult) :
    (dictInsert d k v).lookup k = some v := by
  unfold dictInsert
  by_cases h : d.any (fun p => p.1 == k) = true
  · rw [if_pos h]
    exact lookup_map_replace d k v h
  · rw [if_neg h]
    exact lookup_append_fresh d k v (Bool.eq_false_iff.mpr h)

theorem lookup_dictInsert_ne (d : List (String × List CryptoResult)) (k k' : String)
    (v : List CryptoResult) (h : k' ≠ k) :
    (dictInsert d k v).lookup k' = d.lookup k' := by
  have hke : (k' == k) = false := by simp [h]
  unfold dictInsert
  by_cases hany : d.any (fun p => p.1 == k) = true
  · rw [if_pos hany]
    clear hany
    induction d with
    | nil => rfl
    | cons hd tl ih =>
        obtain ⟨k1, v1⟩ := hd
        simp only [List.map_cons]
        by_cases hk : k1 = k
        · subst hk
          rw [if_pos (beq_self_eq_true k1)]
          simp only [List.lookup, hke]
          exact ih
        · have hne : (k1 == k) = false := by simp [hk]
          rw [if_neg (by simp [hne])]
          simp only [List.lookup]
          cases hc : (k' == k1) with
          | false => exact ih
          | true => rfl
  · rw [if_neg hany]
    clear hany
    induction d with
    | nil => simp only [List.nil_append, List.lookup, hke]
    | cons hd tl ih =>
        obtain ⟨k1, v1⟩ := hd
        simp only [List.cons_append, List.lookup]
        cases hc : (k' == k1) with
        | false => exact ih
        | true => rfl

theorem runLoop_lookup_not_mem
    (bench : Nat → String → Except String (List CryptoResult)) (i : Nat)
    (acc : List (String × List CryptoResult)) (algs : List String) (a : String)
    (h : a ∉ algs) :
    (runLoop bench i acc algs).lookup a = acc.lookup a := by
  induction algs generalizing i acc with
  | nil => rfl
  | cons b rest ih =>
      simp only [List.mem_cons, not_or] at h
      unfold runLoop
      rw [ih _ _ h.2, lookup_dictInsert_ne _ _ _ _ h.1]

theorem runLoop_lookup_of_mem
    (bench : Nat → String → Except String (List CryptoResult)) (i : Nat)
    (acc : List (String × List CryptoResult)) (algs : List String) (a : String)
    (h : a ∈ algs) :
    ∃ m, (runLoop bench i acc algs).lookup a
        = some (match bench m a with | .ok r => r | .error _ => []) := by
  induction algs generalizing i acc with
  | nil => cases h
  | cons b rest ih =>
      unfold runLoop
      by_cases hmem : a ∈ rest
      · exact ih _ _ hmem
      · have hab : a = b := by
          rcases List.mem_cons.mp h with h' | h'
          · exact h'
          · exact absurd h' hmem
        subst hab
        refine ⟨i, ?_⟩
        rw [runLoop_lookup_not_mem _ _ _ _ _ hmem, lookup_dictInsert_self]

theorem runLoop_lookup_congr
    (b1 b2 : Nat → String → Except String (List CryptoResult)) (a : String)
    (hb : ∀ m, b1 m a = b2 m a) (i : Nat)
    (acc1 acc2 : List (String × List CryptoResult))
    (hacc : acc1.lookup a = acc2.lookup a) (algs : List String) :
    (runLoop b1 i acc1 algs).lookup a = (runLoop b2 i acc2 algs).lookup a := by
  induction algs generalizing i acc1 acc2 with
  | nil => exact hacc
  | cons b rest ih =>
      unfold runLoop
      apply ih
      by_cases hba : b = a
      · subst hba
        rw [lookup_dictInsert_self, lookup_dictInsert_self, hb i]
      · have hab : a ≠ b := fun hq => hba hq.symm
        rw [lookup_dictInsert_ne _ _ _ _ hab, lookup_dictInsert_ne _ _ _ _ hab]
        exact hacc

theorem runLoop_eq_append_runFresh
    (bench : Nat → String → Except String (List CryptoResult))
    (algs : List String) (hnd : algs.Nodup) :
    ∀ (i : Nat) (acc : List (String × List CryptoResult)),
      (∀ x ∈ algs, acc.any (fun p => p.1 == x) = false) →
      runLoop bench i acc algs = acc ++ runFresh bench i algs := by
  induction algs with
  | nil => intro i acc _; simp [runLoop, runFresh]
  | cons b rest ih =>
      intro i acc hfresh
      obtain ⟨hb, hrest⟩ := List.nodup_cons.mp hnd
      have hbf : acc.any (fun p => p.1 == b) = false := hfresh b (by simp)
      have hins : dictInsert acc b
          (match bench i b with | .ok r => r | .error _ => []) =
          acc ++ [(b, match bench i b with | .ok r => r | .error _ => [])] := by
        unfold dictInsert
        rw [if_neg (by simp [hbf])]
      unfold runLoop
      rw [hins, ih hrest (i + 1) _ ?hf, List.append_assoc]
      · rfl
      case hf =>
        intro x hx
        rw [List.any_append]
        have h1 : acc.any (fun p => p.1 == x) = false := hfresh x (by simp [hx])
        have h2 : (b == x) = false := by
          simp only [beq_eq_false_iff_ne, ne_eq]
          exact fun hq => hb (hq ▸ hx)
        simp [h1, h2]

theorem runFresh_keys
    (bench : Nat → String → Except String (List CryptoResult)) (algs : List String) :
    ∀ i, (runFresh bench i algs).map Prod.fst = algs := by
  induction algs with
  | nil => intro i; rfl
  | cons b rest ih =>
      intro i
      simp only [runFresh, List.map_cons, ih]

theorem run_comprehensive_nodup (p : Provider) (clock : Nat → Rat)
    (algs : List String) (hnd : algs.Nodup) :
    run_comprehensive_benchmark p clock algs =
      runFresh (fun i x => Except.ok (benchmark_algorithm p clock (4 * i) x "both"))
        0 algs := by
  unfold run_comprehensive_benchmark
  rw [runLoop_eq_append_runFresh _ _ hnd 0 [] (fun x _ => rfl)]
  rfl

theorem simulate_kem_name_and_operation (p : Provider) (c : Nat → Rat) (k : Nat)
    (a : String) :
    (simulate_kem_exchange p c k a).1.algorithm = a ∧
    (simulate_kem_exchange p c k a).1.operation = "KEM Exchange" := by
  refine ⟨?_, ?_⟩ <;>
    (simp only [simulate_kem_exchange]; repeat' split) <;> rfl

theorem simulate_sig_name_and_operation (p : Provider) (c : Nat → Rat) (k : Nat)
    (a : String) (m : Bytes) :
    (simulate_digital_signature p c k a m).1.algorithm = a ∧
    (simulate_digital_signature p c k a m).1.operation = "Digital Signature" := by
  refine ⟨?_, ?_⟩ <;>
    (simp only [simulate_digital_signature]; repeat' split) <;> rfl

theorem benchmark_algorithm_congr (p q : Provider) (clock : Nat → Rat) (n : Nat)
    (a op : String) (hk : p.kem a = q.kem a) (hs : p.sig a = q.sig a) :
    benchmark_algorithm p clock n a op = benchmark_algorithm q clock n a op := by
  have h1 : ∀ k, simulate_kem_exchange p clock k a = simulate_kem_exchange q clock k a := by
    intro k; simp only [simulate_kem_exchange, hk]
  have h2 : ∀ k m, simulate_digital_signature p clock k a m
      = simulate_digital_signature q clock k a m := by
    intro k m; simp only [simulate_digital_signature, hs]
  simp only [benchmark_algorithm, h1, h2]

theorem benchmark_both_proj (p : Provider) (clock : Nat → Rat) (k : Nat) (a : String) :
    (benchmark_algorithm p clock k a "both").map (fun r => (r.algorithm, r.operation)) =
      [(a, "KEM Exchange"), (a, "Digital Signature")] := by
  have e1 := simulate_kem_name_and_operation p clock k a
  have e2 := simulate_sig_name_and_operation p clock (k + 2) a defaultMessage
  simp [benchmark_algorithm, e1.1, e1.2, e2.1, e2.2]

theorem runFresh_flat_proj (p : Provider) (clock : Nat → Rat) (algs : List String) :
    ∀ i, ((runFresh (fun j x => Except.ok (benchmark_algorithm p clock (4 * j) x "both"))
          i algs).flatMap (fun e => e.2)).map (fun r => (r.algorithm, r.operation)) =
      algs.flatMap (fun x => [(x, "KEM Exchange"), (x, "Digital Signature")]) := by
  induction algs with
  | nil => intro i; rfl
  | cons b rest ih =>
      intro i
      simp only [runFresh, List.flatMap_cons, List.map_append, ih]
      rw [benchmark_both_proj]

/-! ### C7: per-algorithm failure isolation -/

/-- C7: every algorithm in the list gets a report entry that equals its
own `benchmark_algorithm` output, and that entry depends only on the
provider's behaviour for that algorithm — so another algorithm's total
rejection or sub-operation failure cannot prevent or change it. -/
theorem benchmark_isolates_per_algorithm_failures
    (p q : Provider) (clock : Nat → Rat) (algs : List String) (a : String)
    (hmem : a ∈ algs) (hk : p.kem a = q.kem a) (hs : p.sig a = q.sig a) :
    (∃ m, (run_comprehensive_benchmark p clock algs).lookup a
        = some (benchmark_algorithm p clock m a "both")) ∧
    (run_comprehensive_benchmark p clock algs).lookup a
      = (run_comprehensive_benchmark q clock algs).lookup a := by
  constructor
  · obtain ⟨m, hm⟩ := runLoop_lookup_of_mem
      (fun i x => Except.ok (benchmark_algorithm p clock (4 * i) x "both")) 0 [] algs a hmem
    exact ⟨4 * m, hm⟩
  · unfold run_comprehensive_benchmark
    exact runLoop_lookup_congr _ _ a
      (fun m => by rw [benchmark_algorithm_congr p q clock (4 * m) a "both" hk hs])
      0 [] [] rfl algs

/-- Witness for C7: the provider rejecting `"Bad-Alg"` gives `"B"` the
same entry as the fully succeeding provider does. -/
theorem benchmark_isolates_per_algorithm_failures_witness :
    (∃ m, (run_comprehensive_benchmark mixedProvider zeroClock
        ["A", "Bad-Alg", "B"]).lookup "B"
          = some (benchmark_algorithm mixedProvider zeroClock m "B" "both")) ∧
    (run_comprehensive_benchmark mixedProvider zeroClock ["A", "Bad-Alg", "B"]).lookup "B"
      = (run_comprehensive_benchmark okProvider zeroClock ["A", "Bad-Alg", "B"]).lookup "B" :=
  benchmark_isolates_per_algorithm_failures mixedProvider okProvider zeroClock
    ["A", "Bad-Alg", "B"] "B" (by decide) rfl rfl

/-! ### C8: processing order and single attempts -/

/-- C8: `benchmark_algorithm` attempts the KEM operation before the
Signature operation, each at most once, exactly when its kind is
requested; and over a duplicate-free list the report's results, flattened
in report order, are one KEM result then one Signature result per
algorithm, in the order the algorithms were given — each
algorithm/operation pair attempted exactly once. -/
theorem benchmark_order_kem_before_sig_exactly_once
    (p : Provider) (clock : Nat → Rat) (n : Nat) (a op : String)
    (algs : List String) (hnd : algs.Nodup) :
    (benchmark_algorithm p clock n a op).map (fun r => (r.algorithm, r.operation)) =
      (if op = "both" ∨ op = "kem" then [(a, "KEM Exchange")] else []) ++
      (if op = "both" ∨ op = "sig" then [(a, "Digital Signature")] else []) ∧
    ((run_comprehensive_benchmark p clock algs).flatMap (fun e => e.2)).map
        (fun r => (r.algorithm, r.operation)) =
      algs.flatMap (fun x => [(x, "KEM Exchange"), (x, "Digital Signature")]) := by
  constructor
  · have e1 := simulate_kem_name_and_operation p clock n a
    by_cases hkem : op = "both" ∨ op = "kem"
    · have hb : (op == "both" || op == "kem") = true := by
        rcases hkem with h | h <;> simp [h]
      have e2 := simulate_sig_name_and_operation p clock (n + 2) a defaultMessage
      by_cases hsig : op = "both" ∨ op = "sig"
      · have hb2 : (op == "both" || op == "sig") = true := by
          rcases hsig with h | h <;> simp [h]
        simp [benchmark_algorithm, hb, hb2, hkem, hsig, e1.1, e1.2, e2.1, e2.2]
      · have hb2 : (op == "both" || op == "sig") = false := by
          simp only [not_or] at hsig
          simp [hsig.1, hsig.2]
        simp [benchmark_algorithm, hb, hb2, hkem, hsig, e1.1, e1.2]
    · have hb : (op == "both" || op == "kem") = false := by
        simp only [not_or] at hkem
        simp [hkem.1, hkem.2]
      have e2 := simulate_sig_name_and_operation p clock n a defaultMessage
      by_cases hsig : op = "both" ∨ op = "sig"
      · have hb2 : (op == "both" || op == "sig") = true := by
          rcases hsig with h | h <;> simp [h]
        simp [benchmark_algorithm, hb, hb2, hkem, hsig, e2.1, e2.2]
      · have hb2 : (op == "both" || op == "sig") = false := by
          simp only [not_or] at hsig
          simp [hsig.1, hsig.2]
        simp [benchmark_algorithm, hb, hb2, hkem, hsig]
  · rw [run_comprehensive_nodup p clock algs hnd, runFresh_flat_proj]

/-- Witness for C8 with both operations requested on a two-element
list. -/
theorem benchmark_order_kem_before_sig_exactly_once_witness :
    (benchmark_algorithm okProvider zeroClock 0 "ML-KEM-512" "both").map
        (fun r => (r.algorithm, r.operation)) =
      (if ("both" : String) = "both" ∨ ("both" : String) = "kem"
        then [("ML-KEM-512", "KEM Exchange")] else []) ++
      (if ("both" : String) = "both" ∨ ("both" : String) = "sig"
        then [("ML-KEM-512", "Digital Signature")] else []) ∧
    ((run_comprehensive_benchmark okProvider zeroClock ["X", "Y"]).flatMap
        (fun e => e.2)).map (fun r => (r.algorithm, r.operation)) =
      ["X", "Y"].flatMap (fun x => [(x, "KEM Exchange"), (x, "Digital Signature")]) :=
  benchmark_order_kem_before_sig_exactly_once okProvider zeroClock 0 "ML-KEM-512"
    "both" ["X", "Y"] (by decide)

/-! ### C9: report keys -/

/-- C9 counterexample: with a duplicated input name the report keys are
the single deduplicated name, not the input list, refuting the claim for
arbitrary input lists (Python dict insertion collapses duplicates). -/
theorem duplicate_names_collapse_report_keys :
    (run_comprehensive_benchmark okProvider zeroClock
        ["ML-KEM-512", "ML-KEM-512"]).map Prod.fst = ["ML-KEM-512"] ∧
    ["ML-KEM-512"] ≠ ["ML-KEM-512", "ML-KEM-512"] :=
  ⟨rfl, by decide⟩

/-- C9 (amended): for every duplicate-free input list the report has
exactly the input names as keys, in input order; and in the orchestrator
loop an algorithm whose benchmark call raises still appears as a key
mapped to the empty list. -/
theorem report_keys_match_nodup_input
    (p : Provider) (clock : Nat → Rat) (algs : List String) (hnd : algs.Nodup)
    (bench : Nat → String → Except String (List CryptoResult)) (a : String)
    (hmem : a ∈ algs) (err : String) (hra : ∀ m, bench m a = .error err) :
    (run_comprehensive_benchmark p clock algs).map Prod.fst = algs ∧
    (runLoop bench 0 [] algs).lookup a = some [] := by
  constructor
  · rw [run_comprehensive_nodup p clock algs hnd, runFresh_keys]
  · obtain ⟨m, hm⟩ := runLoop_lookup_of_mem bench 0 [] algs a hmem
    rw [hra m] at hm
    exact hm

/-- Witness for C9 (amended) with a loop body that always raises. -/
theorem report_keys_match_nodup_input_witness :
    (run_comprehensive_benchmark okProvider zeroClock ["A", "B"]).map Prod.fst
      = ["A", "B"] ∧
    (runLoop (fun _ _ => Except.error "crash") 0 [] ["A", "B"]).lookup "A" = some [] :=
  report_keys_match_nodup_input okProvider zeroClock ["A", "B"] (by decide)
    (fun _ _ => Except.error "crash") "A" (by decide) "crash" (fun _ => rfl)
